import Mathlib

/-!
Verification of the pooch fetch pipeline (`src/pooch/core.py`).

The embedding models the fetch decision engine and integrity-verified
download pipeline: `Pooch.fetch`, `download_action`, `stream_download`
and `Pooch.load_registry` are translated from `src/pooch/core.py`.
The filesystem is an explicit state value (association list of file
paths to contents plus a set of directories); side effects observable
to a caller (directory creation, logging, downloader selection and
invocation, processor invocation) are recorded in an event trace.

Helpers that `core.py` imports from `pooch/utils.py` and
`pooch/downloaders.py` (`hash_matches`, `temporary_file`,
`choose_downloader`) are not part of the given sources; they are
modelled from the specification where needed, and `choose_downloader`
is kept abstract as a parameter.
-/

/-- Errors surfaced by the pipeline. In the Python source these are
`ValueError` (unknown registry name, hash mismatch, unsupported hash
algorithm) and transport exceptions; the model separates them by kind. -/
inductive PoochError where
  | notInRegistry (fname : String)
  | unsupportedAlgorithm (alg : String)
  | hashMismatch (actual expected : String)
  | transport (msg : String)
deriving DecidableEq

/-- Observable side effects of a fetch, in the order they happen:
directory creation (`os.makedirs`), the log line emitted before a
transfer, consultation of `choose_downloader`, invocation of a
downloader (tagged with the downloader's identity, the URL and the
temporary file path), and invocation of the post-processing hook. -/
inductive Event where
  | makedirs (p : String)
  | log (verb fname url root : String)
  | choose (url : String)
  | download (tag url tmp : String)
  | process (path action : String)
deriving DecidableEq

/-- Behaviour of one downloader invocation: either it delivers the full
content into the destination file, or it raises an error, possibly
after writing partial content (a transfer interrupted midway). -/
inductive DLResult where
  | ok (c : String)
  | err (e : PoochError) (leftover : Option String)
deriving DecidableEq

/-- A downloader callable: a tag identifying which callable it is, and
its behaviour when invoked. -/
structure Downloader where
  tag : String
  result : DLResult
deriving DecidableEq

/-- A family of digest algorithms: the list of supported algorithm
names and the digest function (algorithm name and file content to hex
string). Kept abstract; theorems hold for every hasher. -/
structure Hasher where
  supported : List String
  digest : String → String → String

/-- Filesystem state: files as an association list from full path to
content, plus the set of existing directories. -/
structure FS where
  files : List (String × String)
  dirs : List String
deriving DecidableEq

/-- Content of the file at a path, if it exists. -/
def FS.readFile (fs : FS) (p : String) : Option String :=
  fs.files.lookup p

/-- True when a file exists at the path. -/
def FS.fileExists (fs : FS) (p : String) : Bool :=
  (fs.readFile p).isSome

/-- Write (create or overwrite) the file at a path. -/
def FS.writeFile (fs : FS) (p c : String) : FS :=
  { fs with files := (p, c) :: fs.files.filter (fun e => e.1 != p) }

/-- Remove the file at a path if it exists (no-op otherwise). -/
def FS.removeFile (fs : FS) (p : String) : FS :=
  { fs with files := fs.files.filter (fun e => e.1 != p) }

/-- True when the directory exists. -/
def FS.dirExists (fs : FS) (p : String) : Bool :=
  fs.dirs.contains p

/-- Create a directory; `os.makedirs` with `exist_ok` semantics
(idempotent, never touches files). -/
def FS.mkdir (fs : FS) (p : String) : FS :=
  if fs.dirs.contains p then fs else { fs with dirs := p :: fs.dirs }

/-- Split a character list into the chunks delimited by characters
satisfying the predicate (separators are dropped; a list with no
separator yields one chunk). -/
def splitWhen (p : Char → Bool) : List Char → List (List Char)
  | [] => [[]]
  | c :: cs =>
    match splitWhen p cs, p c with
    | r, true => [] :: r
    | [], false => [[c]]
    | w :: ws, false => (c :: w) :: ws

/-- Join a list of strings with a separator between elements. -/
def joinWith (sep : String) : List String → String
  | [] => ""
  | [s] => s
  | s :: rest => s ++ sep ++ joinWith sep rest

/-- Lower-case every character of a string (ASCII case folding, enough
for hex digests). -/
def lowerStr (s : String) : String :=
  String.mk (s.data.map Char.toLower)

/-- Parent directory of a path, by dropping the last `/`-separated
component (mirrors `pathlib`'s `Path.parent` for the paths used here). -/
def parentDir (p : String) : String :=
  joinWith "/" (((splitWhen (fun c => c == '/') p.data).map String.mk).dropLast)

/-- Name of the temporary file that `temporary_file` creates next to
the target. The real helper picks a fresh name in the same directory;
the model uses a distinguished name derived from the target. -/
def tmpName (p : String) : String := p ++ ".tmp"

/-- Modelled from the spec: hash-spec parsing from `pooch/utils.py`
(not among the given sources). Split on the first colon; with a colon
the left part names the algorithm and the right part is the digest,
otherwise the whole string is a digest under the default algorithm
(SHA-256). -/
def parseHash (spec : String) : String × String :=
  match (splitWhen (fun c => c == ':') spec.data).map String.mk with
  | [] => ("sha256", "")
  | [d] => ("sha256", d)
  | alg :: rest => (alg, joinWith ":" rest)

/-- Modelled from the spec: `hash_matches` from `pooch/utils.py` (not
among the given sources). An empty expected-hash spec matches
unconditionally; an unsupported algorithm name is a hard error; hex
digests are compared case-insensitively; under `strict` a mismatch is
a `HashMismatch` error carrying both digests, otherwise it is `false`. -/
def hash_matches (H : Hasher) (content : String) (known_hash : String)
    (strict : Bool) : Except PoochError Bool :=
  if known_hash = "" then Except.ok true
  else
    let alg := (parseHash known_hash).1
    let expected := (parseHash known_hash).2
    if H.supported.contains alg then
      let actual := H.digest alg content
      if lowerStr actual = lowerStr expected then Except.ok true
      else if strict then Except.error (PoochError.hashMismatch actual expected)
      else Except.ok false
    else Except.error (PoochError.unsupportedAlgorithm alg)

/-- Manager for a local data storage, from `core.py`. `path` is the
storage root (taken as already absolute, standing in for `abspath`);
`registry` maps file names to expected hash specs; `urls` maps file
names to custom download URLs. -/
structure Pooch where
  path : String
  base_url : String
  registry : List (String × String)
  urls : List (String × String)
deriving DecidableEq

/-- Full path of a registry file inside the local storage,
`self.abspath / fname` in `core.py`. -/
def Pooch.full_path (p : Pooch) (fname : String) : String :=
  p.path ++ "/" ++ fname

/-- Effective download URL for a name: the custom URL when one exists,
otherwise `base_url + fname` (the body of `Pooch.get_url`). -/
def effectiveUrl (p : Pooch) (fname : String) : String :=
  (p.urls.lookup fname).getD (p.base_url ++ fname)

/-- Full URL to download a file in the registry (`Pooch.get_url` in
`core.py`): asserts registry membership, then builds the URL. -/
def Pooch.get_url (p : Pooch) (fname : String) : Except PoochError String :=
  if (p.registry.lookup fname).isSome then Except.ok (effectiveUrl p fname)
  else Except.error (PoochError.notInRegistry fname)

/-- Action resolution from `core.py` (`download_action`): `download`
when the file does not exist, `update` when it exists but the
non-strict hash comparison is false, `fetch` when it matches. A hash
comparison error (unsupported algorithm) propagates. Returns the
action together with the log verb. -/
def download_action (H : Hasher) (fs : FS) (path : String)
    (known_hash : String) : Except PoochError (String × String) :=
  match fs.readFile path with
  | none => Except.ok ("download", "Downloading")
  | some c =>
    match hash_matches H c known_hash false with
    | Except.error e => Except.error e
    | Except.ok true => Except.ok ("fetch", "Fetching")
    | Except.ok false => Except.ok ("update", "Updating")

/-- Outcome of `stream_download`: an error if any was raised, the
filesystem afterwards, and the trace of observable effects. -/
structure SDR where
  err : Option PoochError
  fs : FS
  trace : List Event

/-- Streaming download from `core.py` (`stream_download`): ensure the
target's parent directory exists, download into a temporary file
colocated with the target, check the hash strictly, and move the
temporary file over the target. The `temporary_file` context manager
(from `pooch/utils.py`, not among the given sources) is modelled from
the spec: the temporary file is removed on every exit path if it still
exists, including when the downloader or the hash check raises. -/
def stream_download (H : Hasher) (url : String) (fname : String)
    (known_hash : String) (d : Downloader) (fs : FS) : SDR :=
  let fs1 := if fs.dirExists (parentDir fname) then fs
    else fs.mkdir (parentDir fname)
  let ev1 : List Event := if fs.dirExists (parentDir fname) then []
    else [Event.makedirs (parentDir fname)]
  let tmp := tmpName fname
  let fs2 := fs1.writeFile tmp ""
  let evs := ev1 ++ [Event.download d.tag url tmp]
  match d.result with
  | DLResult.err e leftover =>
    let fs3 := match leftover with
      | some c => fs2.writeFile tmp c
      | none => fs2
    ⟨some e, fs3.removeFile tmp, evs⟩
  | DLResult.ok c =>
    match hash_matches H c known_hash true with
    | Except.error e => ⟨some e, (fs2.writeFile tmp c).removeFile tmp, evs⟩
    | Except.ok _ =>
      ⟨none, (((fs2.writeFile tmp c).removeFile tmp).writeFile fname c).removeFile tmp, evs⟩

/-- A post-processing hook: called with the full path, the action
string and the Pooch instance; its return value replaces the path as
the result of `fetch`. -/
def Processor : Type := String → String → Pooch → String

/-- Result of a fetch: the returned value or error, the filesystem
afterwards, and the trace of observable effects. -/
structure FetchResult where
  res : Except PoochError String
  fs : FS
  trace : List Event

/-- Tail of `Pooch.fetch` after any required transfer: invoke the
processor when one is given (its return value becomes the result),
otherwise return the full path. -/
def finishFetch (p : Pooch) (processor : Option Processor)
    (fp action : String) (fs : FS) (evs : List Event) : FetchResult :=
  match processor with
  | some proc => ⟨Except.ok (proc fp action p), fs, evs ++ [Event.process fp action]⟩
  | none => ⟨Except.ok fp, fs, evs⟩

/-- Downloader-selection events: `choose_downloader` is consulted
exactly when no downloader is supplied to `fetch`. -/
def chooseEvents (downloader : Option Downloader) (url : String) : List Event :=
  match downloader with
  | some _ => []
  | none => [Event.choose url]

/-- Fetch pipeline from `core.py` (`Pooch.fetch`): assert registry
membership, create the storage root, compute URL and full path,
resolve the action; on `download` or `update` log, select the
downloader (`choose_downloader`, kept abstract as `cd`, consulted only
when no downloader is supplied) and stream the download; finally run
the processor if any. -/
def Pooch.fetch (H : Hasher) (cd : String → Downloader) (p : Pooch)
    (fname : String) (processor : Option Processor)
    (downloader : Option Downloader) (fs : FS) : FetchResult :=
  match p.registry.lookup fname with
  | none => ⟨Except.error (PoochError.notInRegistry fname), fs, []⟩
  | some known_hash =>
    let fs1 := fs.mkdir p.path
    let url := effectiveUrl p fname
    let fp := p.full_path fname
    match download_action H fs1 fp known_hash with
    | Except.error e => ⟨Except.error e, fs1, [Event.makedirs p.path]⟩
    | Except.ok av =>
      if av.1 == "download" || av.1 == "update" then
        let r := stream_download H url fp known_hash (downloader.getD (cd url)) fs1
        let evs := Event.makedirs p.path :: Event.log av.2 fname url p.path ::
          (chooseEvents downloader url ++ r.trace)
        match r.err with
        | some e => ⟨Except.error e, r.fs, evs⟩
        | none => finishFetch p processor fp av.1 r.fs evs
      else
        finishFetch p processor fp av.1 fs1 [Event.makedirs p.path]

/-- Whitespace splitting of a registry line: Python's
`line.strip().split()` (split on whitespace runs, dropping empties). -/
def splitFields (line : String) : List String :=
  ((splitWhen Char.isWhitespace line.data).map String.mk).filter (fun s => s != "")

/-- Payload of the `OSError` raised by `load_registry` on an invalid
line: the 1-based line number and the number of fields found. -/
structure LoadErr where
  linenum : Nat
  nfields : Nat
deriving DecidableEq

/-- Insert or overwrite a key in an association-list mapping
(Python dictionary assignment `m[k] = v`). -/
def upsert (m : List (String × String)) (k v : String) : List (String × String) :=
  (k, v) :: m.filter (fun e => e.1 != k)

/-- Registry-file loading loop from `core.py` (`Pooch.load_registry`),
starting at a given 0-based line index: blank lines are skipped, a
two-field line sets `registry[name] = hash`, a three-field line also
sets `urls[name] = url`, and any other field count stops with an error
carrying the 1-based line number and field count, keeping the entries
applied so far. -/
def load_registry_from (p : Pooch) (lines : List String) (linenum : Nat) :
    Pooch × Option LoadErr :=
  match lines with
  | [] => (p, none)
  | line :: rest =>
    match splitFields line with
    | [] => load_registry_from p rest (linenum + 1)
    | [name, sum] =>
      load_registry_from { p with registry := upsert p.registry name sum } rest (linenum + 1)
    | [name, sum, u] =>
      load_registry_from
        { p with registry := upsert p.registry name sum, urls := upsert p.urls name u }
        rest (linenum + 1)
    | es => (p, some ⟨linenum + 1, es.length⟩)

/-- Load entries from a registry file, given as its list of lines
(`Pooch.load_registry` in `core.py`). -/
def Pooch.load_registry (p : Pooch) (lines : List String) : Pooch × Option LoadErr :=
  load_registry_from p lines 0

/-- Recogniser for processor-invocation events in a trace. -/
def Event.isProcess : Event → Bool
  | Event.process _ _ => true
  | _ => false

-- Concrete fixtures used by the witnesses below.

/-- Concrete hasher for witnesses: the digest of content `c` under
algorithm `alg` is the string `alg ++ "+" ++ c`. -/
def toyHasher : Hasher :=
  { supported := ["sha256", "md5"], digest := fun alg c => alg ++ "+" ++ c }

/-- Concrete default-downloader selector for witnesses. -/
def cdToy : String → Downloader := fun _ => ⟨"chosen", DLResult.ok "hello"⟩

/-- Concrete downloader delivering the expected content. -/
def dlGood : Downloader := ⟨"explicit", DLResult.ok "hello"⟩

/-- Concrete downloader delivering corrupt content. -/
def dlBad : Downloader := ⟨"explicit", DLResult.ok "corrupt"⟩

/-- Concrete downloader failing mid-transfer, leaving partial content
in the temporary file. -/
def dlFail : Downloader := ⟨"explicit", DLResult.err (PoochError.transport "boom") (some "par")⟩

/-- Concrete Pooch instance for witnesses. -/
def poochW : Pooch :=
  { path := "root", base_url := "http://x/",
    registry := [("data.txt", "sha256+hello")], urls := [] }

/-- Empty filesystem for witnesses. -/
def fs0 : FS := ⟨[], []⟩

/-- Filesystem holding a stale copy of the data file. -/
def fsStale : FS := ⟨[("root/data.txt", "stale")], ["root"]⟩

/-- Filesystem holding an up-to-date copy of the data file. -/
def fsFresh : FS := ⟨[("root/data.txt", "hello")], ["root"]⟩

/-- Concrete processor for witnesses: returns its path and action
arguments joined in one string. -/
def procW : Processor := fun fp a _ => fp ++ ":" ++ a


theorem tmpName_ne (p : String) : tmpName p ≠ p := by
  intro h
  have hlen := congrArg String.length h
  simp [tmpName, String.length_append] at hlen
  exact absurd hlen (by decide)

-- Association-list lemmas backing the filesystem operations.

theorem lookup_filter_ne (l : List (String × String)) (q r : String) (h : r ≠ q) :
    (l.filter (fun e => e.1 != q)).lookup r = l.lookup r := by
  induction l with
  | nil => rfl
  | cons a t ih =>
    by_cases ha : a.1 = q
    · have hf : (a.1 != q) = false := by simp [ha]
      have hr : (r == a.1) = false := by simp [ha, h]
      simp [List.filter_cons, hf, List.lookup, hr, ih]
    · have hf : (a.1 != q) = true := by simp [ha]
      simp only [List.filter_cons, hf, if_true]
      by_cases hr : r = a.1
      · simp [List.lookup, hr]
      · have hrb : (r == a.1) = false := by simp [hr]
        simp [List.lookup, hrb, ih]

theorem lookup_filter_self (l : List (String × String)) (q : String) :
    (l.filter (fun e => e.1 != q)).lookup q = none := by
  induction l with
  | nil => rfl
  | cons a t ih =>
    by_cases ha : a.1 = q
    · have hf : (a.1 != q) = false := by simp [ha]
      simp [List.filter_cons, hf, ih]
    · have hf : (a.1 != q) = true := by simp [ha]
      have hq : (q == a.1) = false := by simp [Ne.symm ha]
      simp [List.filter_cons, hf, List.lookup, hq, ih]

theorem readFile_writeFile (fs : FS) (q c r : String) :
    (fs.writeFile q c).readFile r = if r = q then some c else fs.readFile r := by
  by_cases h : r = q
  · simp [FS.writeFile, FS.readFile, List.lookup, h]
  · have : (r == q) = false := by simp [h]
    simp [FS.writeFile, FS.readFile, List.lookup, h, this, lookup_filter_ne _ _ _ h]

theorem readFile_removeFile (fs : FS) (q r : String) :
    (fs.removeFile q).readFile r = if r = q then none else fs.readFile r := by
  by_cases h : r = q
  · simp [FS.removeFile, FS.readFile, h, lookup_filter_self]
  · simp [FS.removeFile, FS.readFile, h, lookup_filter_ne _ _ _ h]

theorem files_mkdir (fs : FS) (p : String) : (fs.mkdir p).files = fs.files := by
  unfold FS.mkdir
  split <;> rfl

theorem readFile_mkdir (fs : FS) (p r : String) :
    (fs.mkdir p).readFile r = fs.readFile r := by
  simp [FS.readFile, files_mkdir]

-- Lemmas about hash comparison.

theorem hash_matches_strict_ok (H : Hasher) (c kh : String) (b : Bool)
    (h : hash_matches H c kh true = Except.ok b) :
    hash_matches H c kh false = Except.ok true := by
  by_cases h0 : kh = ""
  · simp [hash_matches, h0]
  · by_cases h1 : (parseHash kh).1 ∈ H.supported
    · by_cases h2 : lowerStr (H.digest (parseHash kh).1 c) = lowerStr (parseHash kh).2
      · simp [hash_matches, h0, h1, h2]
      · simp [hash_matches, h0, h1, h2] at h
    · simp [hash_matches, h0, h1] at h

-- Lemmas about action resolution.

theorem download_action_absent (H : Hasher) (fs : FS) (path kh : String)
    (h : fs.readFile path = none) :
    download_action H fs path kh = Except.ok ("download", "Downloading") := by
  simp [download_action, h]

theorem download_action_stale (H : Hasher) (fs : FS) (path kh c : String)
    (hc : fs.readFile path = some c)
    (hm : hash_matches H c kh false = Except.ok false) :
    download_action H fs path kh = Except.ok ("update", "Updating") := by
  simp [download_action, hc, hm]

theorem download_action_current (H : Hasher) (fs : FS) (path kh c : String)
    (hc : fs.readFile path = some c)
    (hm : hash_matches H c kh false = Except.ok true) :
    download_action H fs path kh = Except.ok ("fetch", "Fetching") := by
  simp [download_action, hc, hm]

theorem download_action_hash_err (H : Hasher) (fs : FS) (path kh c : String)
    (e : PoochError) (hc : fs.readFile path = some c)
    (hm : hash_matches H c kh false = Except.error e) :
    download_action H fs path kh = Except.error e := by
  simp [download_action, hc, hm]

theorem download_action_ok_inv (H : Hasher) (fs : FS) (path kh : String)
    (av : String × String) (h : download_action H fs path kh = Except.ok av) :
    (av = ("download", "Downloading") ∧ fs.readFile path = none) ∨
    ∃ c, fs.readFile path = some c ∧
      ((av = ("update", "Updating") ∧ hash_matches H c kh false = Except.ok false) ∨
       (av = ("fetch", "Fetching") ∧ hash_matches H c kh false = Except.ok true)) := by
  cases hr : fs.readFile path with
  | none =>
    have hd := download_action_absent H fs path kh hr
    rw [hd] at h
    simp at h
    exact Or.inl ⟨h.symm, rfl⟩
  | some c =>
    cases hm : hash_matches H c kh false with
    | error e =>
      have hd := download_action_hash_err H fs path kh c e hr hm
      rw [hd] at h
      simp at h
    | ok b =>
      cases b with
      | false =>
        have hd := download_action_stale H fs path kh c hr hm
        rw [hd] at h
        simp at h
        exact Or.inr ⟨c, rfl, Or.inl ⟨h.symm, hm⟩⟩
      | true =>
        have hd := download_action_current H fs path kh c hr hm
        rw [hd] at h
        simp at h
        exact Or.inr ⟨c, rfl, Or.inr ⟨h.symm, hm⟩⟩

-- Lemmas about the streaming download.

theorem stream_download_trace (H : Hasher) (url fname kh : String)
    (d : Downloader) (fs : FS) :
    (stream_download H url fname kh d fs).trace =
      (if fs.dirExists (parentDir fname) then ([] : List Event)
        else [Event.makedirs (parentDir fname)]) ++
      [Event.download d.tag url (tmpName fname)] := by
  cases hd : d.result with
  | ok c =>
    cases hm : hash_matches H c kh true with
    | error e => simp [stream_download, hd, hm]
    | ok b => simp [stream_download, hd, hm]
  | err e lo => cases lo <;> simp [stream_download, hd]

theorem stream_download_tmp_gone (H : Hasher) (url fname kh : String)
    (d : Downloader) (fs : FS) :
    (stream_download H url fname kh d fs).fs.readFile (tmpName fname) = none := by
  cases hd : d.result with
  | ok c =>
    cases hm : hash_matches H c kh true with
    | error e => simp [stream_download, hd, hm, readFile_removeFile]
    | ok b => simp [stream_download, hd, hm, readFile_removeFile]
  | err e lo => cases lo <;> simp [stream_download, hd, readFile_removeFile]

theorem stream_download_ok (H : Hasher) (url fname kh : String)
    (d : Downloader) (fs : FS) (c : String) (b : Bool)
    (hd : d.result = DLResult.ok c)
    (hm : hash_matches H c kh true = Except.ok b) :
    (stream_download H url fname kh d fs).err = none ∧
    (stream_download H url fname kh d fs).fs.readFile fname = some c := by
  have hne : fname ≠ tmpName fname := (tmpName_ne fname).symm
  simp [stream_download, hd, hm, readFile_removeFile, readFile_writeFile, hne]

theorem stream_download_err_of_dl (H : Hasher) (url fname kh : String)
    (d : Downloader) (fs : FS) (e : PoochError) (lo : Option String)
    (hd : d.result = DLResult.err e lo) :
    (stream_download H url fname kh d fs).err = some e := by
  cases lo <;> simp [stream_download, hd]

theorem stream_download_err_of_hash (H : Hasher) (url fname kh : String)
    (d : Downloader) (fs : FS) (c : String) (e : PoochError)
    (hd : d.result = DLResult.ok c)
    (hm : hash_matches H c kh true = Except.error e) :
    (stream_download H url fname kh d fs).err = some e := by
  simp [stream_download, hd, hm]

theorem stream_download_err_none_inv (H : Hasher) (url fname kh : String)
    (d : Downloader) (fs : FS)
    (h : (stream_download H url fname kh d fs).err = none) :
    ∃ c b, d.result = DLResult.ok c ∧ hash_matches H c kh true = Except.ok b := by
  cases hd : d.result with
  | ok c =>
    cases hm : hash_matches H c kh true with
    | error e => simp [stream_download, hd, hm] at h
    | ok b => exact ⟨c, b, rfl, hm⟩
  | err e lo => cases lo <;> simp [stream_download, hd] at h

theorem stream_download_err_target (H : Hasher) (url fname kh : String)
    (d : Downloader) (fs : FS) (e : PoochError)
    (he : (stream_download H url fname kh d fs).err = some e) :
    (stream_download H url fname kh d fs).fs.readFile fname = fs.readFile fname := by
  have hne : fname ≠ tmpName fname := (tmpName_ne fname).symm
  cases hd : d.result with
  | ok c =>
    cases hm : hash_matches H c kh true with
    | error e2 =>
      by_cases hdir : fs.dirExists (parentDir fname) <;>
        simp [stream_download, hd, hm, hdir, readFile_removeFile, readFile_writeFile,
          hne, readFile_mkdir]
    | ok b => simp [stream_download, hd, hm] at he
  | err e2 lo =>
    cases lo <;> by_cases hdir : fs.dirExists (parentDir fname) <;>
      simp [stream_download, hd, hdir, readFile_removeFile, readFile_writeFile,
        hne, readFile_mkdir]

-- Lemmas about the fetch pipeline.

theorem finishFetch_fs (p : Pooch) (proc : Option Processor)
    (fp a : String) (fs : FS) (evs : List Event) :
    (finishFetch p proc fp a fs evs).fs = fs := by
  cases proc <;> rfl

theorem fetch_absent_eq (H : Hasher) (cd : String → Downloader) (p : Pooch)
    (fname : String) (proc : Option Processor) (dl : Option Downloader) (fs : FS)
    (h : p.registry.lookup fname = none) :
    Pooch.fetch H cd p fname proc dl fs =
      ⟨Except.error (PoochError.notInRegistry fname), fs, []⟩ := by
  simp [Pooch.fetch, h]

theorem fetch_da_err_eq (H : Hasher) (cd : String → Downloader) (p : Pooch)
    (fname : String) (proc : Option Processor) (dl : Option Downloader) (fs : FS)
    (kh : String) (e : PoochError)
    (hreg : p.registry.lookup fname = some kh)
    (hda : download_action H (fs.mkdir p.path) (p.full_path fname) kh = Except.error e) :
    Pooch.fetch H cd p fname proc dl fs =
      ⟨Except.error e, fs.mkdir p.path, [Event.makedirs p.path]⟩ := by
  simp [Pooch.fetch, hreg, hda]

theorem fetch_only_eq (H : Hasher) (cd : String → Downloader) (p : Pooch)
    (fname : String) (proc : Option Processor) (dl : Option Downloader) (fs : FS)
    (kh c : String)
    (hreg : p.registry.lookup fname = some kh)
    (hc : fs.readFile (p.full_path fname) = some c)
    (hm : hash_matches H c kh false = Except.ok true) :
    Pooch.fetch H cd p fname proc dl fs =
      finishFetch p proc (p.full_path fname) "fetch" (fs.mkdir p.path)
        [Event.makedirs p.path] := by
  have hc1 : (fs.mkdir p.path).readFile (p.full_path fname) = some c := by
    rw [readFile_mkdir]; exact hc
  have hda := download_action_current H (fs.mkdir p.path) (p.full_path fname) kh c hc1 hm
  simp [Pooch.fetch, hreg, hda]

theorem fetch_transfer_err (H : Hasher) (cd : String → Downloader) (p : Pooch)
    (fname : String) (proc : Option Processor) (dl : Option Downloader) (fs : FS)
    (kh : String) (av : String × String) (e : PoochError)
    (hreg : p.registry.lookup fname = some kh)
    (hda : download_action H (fs.mkdir p.path) (p.full_path fname) kh = Except.ok av)
    (ha : av.1 = "download" ∨ av.1 = "update")
    (he : (stream_download H (effectiveUrl p fname) (p.full_path fname) kh
      (dl.getD (cd (effectiveUrl p fname))) (fs.mkdir p.path)).err = some e) :
    Pooch.fetch H cd p fname proc dl fs =
      ⟨Except.error e,
       (stream_download H (effectiveUrl p fname) (p.full_path fname) kh
         (dl.getD (cd (effectiveUrl p fname))) (fs.mkdir p.path)).fs,
       Event.makedirs p.path ::
         Event.log av.2 fname (effectiveUrl p fname) p.path ::
         (chooseEvents dl (effectiveUrl p fname) ++
          (stream_download H (effectiveUrl p fname) (p.full_path fname) kh
            (dl.getD (cd (effectiveUrl p fname))) (fs.mkdir p.path)).trace)⟩ := by
  have hb : (av.1 == "download" || av.1 == "update") = true := by
    rcases ha with h | h <;> simp [h]
  cases dl with
  | none =>
    simp only [Option.getD_none] at he
    simp [Pooch.fetch, hreg, hda, hb, chooseEvents]
    rw [he]
  | some d =>
    simp only [Option.getD_some] at he
    simp [Pooch.fetch, hreg, hda, hb, chooseEvents]
    rw [he]

theorem fetch_transfer_ok (H : Hasher) (cd : String → Downloader) (p : Pooch)
    (fname : String) (proc : Option Processor) (dl : Option Downloader) (fs : FS)
    (kh : String) (av : String × String)
    (hreg : p.registry.lookup fname = some kh)
    (hda : download_action H (fs.mkdir p.path) (p.full_path fname) kh = Except.ok av)
    (ha : av.1 = "download" ∨ av.1 = "update")
    (he : (stream_download H (effectiveUrl p fname) (p.full_path fname) kh
      (dl.getD (cd (effectiveUrl p fname))) (fs.mkdir p.path)).err = none) :
    Pooch.fetch H cd p fname proc dl fs =
      finishFetch p proc (p.full_path fname) av.1
        (stream_download H (effectiveUrl p fname) (p.full_path fname) kh
          (dl.getD (cd (effectiveUrl p fname))) (fs.mkdir p.path)).fs
        (Event.makedirs p.path ::
          Event.log av.2 fname (effectiveUrl p fname) p.path ::
          (chooseEvents dl (effectiveUrl p fname) ++
           (stream_download H (effectiveUrl p fname) (p.full_path fname) kh
             (dl.getD (cd (effectiveUrl p fname))) (fs.mkdir p.path)).trace)) := by
  have hb : (av.1 == "download" || av.1 == "update") = true := by
    rcases ha with h | h <;> simp [h]
  cases dl with
  | none =>
    simp only [Option.getD_none] at he
    simp [Pooch.fetch, hreg, hda, hb, chooseEvents]
    rw [he]
  | some d =>
    simp only [Option.getD_some] at he
    simp [Pooch.fetch, hreg, hda, hb, chooseEvents]
    rw [he]

theorem fetch_transfer_ok_inv (H : Hasher) (cd : String → Downloader) (p : Pooch)
    (fname : String) (proc : Option Processor) (dl : Option Downloader) (fs : FS)
    (kh : String) (av : String × String) (v : String)
    (hreg : p.registry.lookup fname = some kh)
    (hda : download_action H (fs.mkdir p.path) (p.full_path fname) kh = Except.ok av)
    (ha : av.1 = "download" ∨ av.1 = "update")
    (h : (Pooch.fetch H cd p fname proc dl fs).res = Except.ok v) :
    ∃ c evs,
      (Pooch.fetch H cd p fname proc dl fs).fs.readFile (p.full_path fname) = some c ∧
      hash_matches H c kh false = Except.ok true ∧
      evs.filter Event.isProcess = [] ∧
      Pooch.fetch H cd p fname proc dl fs =
        finishFetch p proc (p.full_path fname) av.1
          (Pooch.fetch H cd p fname proc dl fs).fs evs := by
  cases he : (stream_download H (effectiveUrl p fname) (p.full_path fname) kh
      (dl.getD (cd (effectiveUrl p fname))) (fs.mkdir p.path)).err with
  | some e =>
    rw [fetch_transfer_err H cd p fname proc dl fs kh av e hreg hda ha he] at h
    simp at h
  | none =>
    have heq := fetch_transfer_ok H cd p fname proc dl fs kh av hreg hda ha he
    obtain ⟨c, b, hdl, hmt⟩ := stream_download_err_none_inv H (effectiveUrl p fname)
      (p.full_path fname) kh (dl.getD (cd (effectiveUrl p fname))) (fs.mkdir p.path) he
    have hsd := stream_download_ok H (effectiveUrl p fname) (p.full_path fname) kh
      (dl.getD (cd (effectiveUrl p fname))) (fs.mkdir p.path) c b hdl hmt
    have hmf := hash_matches_strict_ok H c kh b hmt
    refine ⟨c,
      Event.makedirs p.path ::
        Event.log av.2 fname (effectiveUrl p fname) p.path ::
        (chooseEvents dl (effectiveUrl p fname) ++
         (stream_download H (effectiveUrl p fname) (p.full_path fname) kh
           (dl.getD (cd (effectiveUrl p fname))) (fs.mkdir p.path)).trace),
      ?_, hmf, ?_, ?_⟩
    · rw [heq, finishFetch_fs]
      exact hsd.2
    · rw [stream_download_trace]
      cases dl <;>
        by_cases hdir : (fs.mkdir p.path).dirExists (parentDir (p.full_path fname)) <;>
        simp [hdir, Event.isProcess, chooseEvents]
    · rw [heq, finishFetch_fs]

theorem fetch_ok_inv (H : Hasher) (cd : String → Downloader) (p : Pooch)
    (fname : String) (proc : Option Processor) (dl : Option Downloader) (fs : FS)
    (v : String)
    (h : (Pooch.fetch H cd p fname proc dl fs).res = Except.ok v) :
    ∃ kh a c evs,
      p.registry.lookup fname = some kh ∧
      (a = "download" ∨ a = "update" ∨ a = "fetch") ∧
      (Pooch.fetch H cd p fname proc dl fs).fs.readFile (p.full_path fname) = some c ∧
      hash_matches H c kh false = Except.ok true ∧
      evs.filter Event.isProcess = [] ∧
      Pooch.fetch H cd p fname proc dl fs =
        finishFetch p proc (p.full_path fname) a
          (Pooch.fetch H cd p fname proc dl fs).fs evs := by
  cases hreg : p.registry.lookup fname with
  | none =>
    rw [fetch_absent_eq H cd p fname proc dl fs hreg] at h
    simp at h
  | some kh =>
    cases hda : download_action H (fs.mkdir p.path) (p.full_path fname) kh with
    | error e =>
      rw [fetch_da_err_eq H cd p fname proc dl fs kh e hreg hda] at h
      simp at h
    | ok av =>
      rcases download_action_ok_inv H (fs.mkdir p.path) (p.full_path fname) kh av hda with
        ⟨hav, _⟩ | ⟨c0, hsome, ⟨hav, _⟩ | ⟨hav, hm0⟩⟩
      · have ha : av.1 = "download" ∨ av.1 = "update" := Or.inl (by rw [hav])
        obtain ⟨c, evs, h1, h2, h3, h4⟩ :=
          fetch_transfer_ok_inv H cd p fname proc dl fs kh av v hreg hda ha h
        exact ⟨kh, av.1, c, evs, rfl, Or.inl (by rw [hav]), h1, h2, h3, h4⟩
      · have ha : av.1 = "download" ∨ av.1 = "update" := Or.inr (by rw [hav])
        obtain ⟨c, evs, h1, h2, h3, h4⟩ :=
          fetch_transfer_ok_inv H cd p fname proc dl fs kh av v hreg hda ha h
        exact ⟨kh, av.1, c, evs, rfl, Or.inr (Or.inl (by rw [hav])), h1, h2, h3, h4⟩
      · have hc : fs.readFile (p.full_path fname) = some c0 := by
          rw [readFile_mkdir] at hsome
          exact hsome
        have heq := fetch_only_eq H cd p fname proc dl fs kh c0 hreg hc hm0
        refine ⟨kh, "fetch", c0, [Event.makedirs p.path], rfl,
          Or.inr (Or.inr rfl), ?_, hm0, rfl, ?_⟩
        · rw [heq, finishFetch_fs, readFile_mkdir]
          exact hc
        · rw [heq, finishFetch_fs]

-- Claim theorems.

/-- C4: a fetch for a name absent from the registry fails with
`NotInRegistry`, regardless of the state of the local filesystem. -/
theorem fetch_absent_raises (H : Hasher) (cd : String → Downloader) (p : Pooch)
    (fname : String) (proc : Option Processor) (dl : Option Downloader) (fs : FS)
    (h : p.registry.lookup fname = none) :
    (Pooch.fetch H cd p fname proc dl fs).res =
      Except.error (PoochError.notInRegistry fname) := by
  rw [fetch_absent_eq H cd p fname proc dl fs h]

theorem fetch_absent_raises_witness :
    poochW.registry.lookup "nope" = none ∧
    (Pooch.fetch toyHasher cdToy poochW "nope" none none fsStale).res =
      Except.error (PoochError.notInRegistry "nope") :=
  ⟨by rfl, fetch_absent_raises toyHasher cdToy poochW "nope" none none fsStale (by rfl)⟩

/-- C9: when the requested name is absent from the registry, fetch
raises before performing any side effect: the filesystem (storage root
included) is unchanged and the event trace is empty — no directory
creation, no downloader selection or invocation, no logging. -/
theorem fetch_absent_no_side_effects (H : Hasher) (cd : String → Downloader)
    (p : Pooch) (fname : String) (proc : Option Processor) (dl : Option Downloader)
    (fs : FS) (h : p.registry.lookup fname = none) :
    Pooch.fetch H cd p fname proc dl fs =
      ⟨Except.error (PoochError.notInRegistry fname), fs, []⟩ :=
  fetch_absent_eq H cd p fname proc dl fs h

theorem fetch_absent_no_side_effects_witness :
    poochW.registry.lookup "missing" = none ∧
    Pooch.fetch toyHasher cdToy poochW "missing" (some procW) (some dlGood) fs0 =
      ⟨Except.error (PoochError.notInRegistry "missing"), fs0, []⟩ :=
  ⟨by rfl,
   fetch_absent_no_side_effects toyHasher cdToy poochW "missing" (some procW)
     (some dlGood) fs0 (by rfl)⟩

/-- C3: `download_action` returns `download` when the target does not
exist on disk, `update` when it exists but the non-strict hash
comparison of its content is false, and `fetch` when that comparison
is true; in the embedding it is a pure function of the filesystem
value and returns no modified filesystem, so it has no side effects. -/
theorem download_action_cases (H : Hasher) (fs : FS) (path kh : String) :
    (fs.readFile path = none →
      download_action H fs path kh = Except.ok ("download", "Downloading")) ∧
    (∀ c, fs.readFile path = some c → hash_matches H c kh false = Except.ok false →
      download_action H fs path kh = Except.ok ("update", "Updating")) ∧
    (∀ c, fs.readFile path = some c → hash_matches H c kh false = Except.ok true →
      download_action H fs path kh = Except.ok ("fetch", "Fetching")) :=
  ⟨fun h => download_action_absent H fs path kh h,
   fun c hc hm => download_action_stale H fs path kh c hc hm,
   fun c hc hm => download_action_current H fs path kh c hc hm⟩

theorem download_action_cases_witness :
    (fs0.readFile "root/data.txt" = none ∧
      download_action toyHasher fs0 "root/data.txt" "sha256+hello" =
        Except.ok ("download", "Downloading")) ∧
    (fsStale.readFile "root/data.txt" = some "stale" ∧
      hash_matches toyHasher "stale" "sha256+hello" false = Except.ok false ∧
      download_action toyHasher fsStale "root/data.txt" "sha256+hello" =
        Except.ok ("update", "Updating")) ∧
    (fsFresh.readFile "root/data.txt" = some "hello" ∧
      hash_matches toyHasher "hello" "sha256+hello" false = Except.ok true ∧
      download_action toyHasher fsFresh "root/data.txt" "sha256+hello" =
        Except.ok ("fetch", "Fetching")) :=
  ⟨⟨by rfl, (download_action_cases toyHasher fs0 "root/data.txt" "sha256+hello").1 (by rfl)⟩,
   ⟨by rfl, by rfl,
    (download_action_cases toyHasher fsStale "root/data.txt" "sha256+hello").2.1 "stale"
      (by rfl) (by rfl)⟩,
   ⟨by rfl, by rfl,
    (download_action_cases toyHasher fsFresh "root/data.txt" "sha256+hello").2.2 "hello"
      (by rfl) (by rfl)⟩⟩

/-- C6: on every execution of `stream_download` the temporary file no
longer exists when the call completes, on every exit path — including
downloader errors raised mid-transfer and strict hash failures; on
success the delivered content has been moved to the target path. -/
theorem stream_download_tmp_scoped (H : Hasher) (url fname kh : String)
    (d : Downloader) (fs : FS) :
    (stream_download H url fname kh d fs).fs.readFile (tmpName fname) = none ∧
    (∀ c, d.result = DLResult.ok c →
      (stream_download H url fname kh d fs).err = none →
      (stream_download H url fname kh d fs).fs.readFile fname = some c) := by
  refine ⟨stream_download_tmp_gone H url fname kh d fs, ?_⟩
  intro c hd he
  obtain ⟨c2, b, hd2, hm⟩ := stream_download_err_none_inv H url fname kh d fs he
  rw [hd] at hd2
  injection hd2 with hc
  subst hc
  exact (stream_download_ok H url fname kh d fs c b hd hm).2

theorem stream_download_tmp_scoped_witness :
    (stream_download toyHasher "u" "root/data.txt" "sha256+hello" dlGood fs0).fs.readFile
      (tmpName "root/data.txt") = none ∧
    dlGood.result = DLResult.ok "hello" ∧
    (stream_download toyHasher "u" "root/data.txt" "sha256+hello" dlGood fs0).err = none ∧
    (stream_download toyHasher "u" "root/data.txt" "sha256+hello" dlGood fs0).fs.readFile
      "root/data.txt" = some "hello" :=
  ⟨(stream_download_tmp_scoped toyHasher "u" "root/data.txt" "sha256+hello" dlGood fs0).1,
   by rfl, by rfl,
   (stream_download_tmp_scoped toyHasher "u" "root/data.txt" "sha256+hello" dlGood fs0).2
     "hello" (by rfl) (by rfl)⟩

/-- C1: whenever `fetch` (without processor) returns successfully, the
returned value is the target path `storageRoot/name`, a file exists
there in the resulting filesystem, and its content's digest matches
the registry's expected hash spec for that name — fetch never returns
a path to a file it has not verified. -/
theorem fetch_returns_verified_path (H : Hasher) (cd : String → Downloader)
    (p : Pooch) (fname : String) (dl : Option Downloader) (fs : FS) (v : String)
    (h : (Pooch.fetch H cd p fname none dl fs).res = Except.ok v) :
    v = p.full_path fname ∧
    ∃ kh c, p.registry.lookup fname = some kh ∧
      (Pooch.fetch H cd p fname none dl fs).fs.readFile (p.full_path fname) = some c ∧
      hash_matches H c kh false = Except.ok true := by
  obtain ⟨kh, a, c, evs, hreg, _, hrd, hm, _, heq⟩ :=
    fetch_ok_inv H cd p fname none dl fs v h
  refine ⟨?_, kh, c, hreg, hrd, hm⟩
  rw [heq] at h
  simp [finishFetch] at h
  exact h.symm

theorem fetch_returns_verified_path_witness :
    (Pooch.fetch toyHasher cdToy poochW "data.txt" none (some dlGood) fs0).res =
      Except.ok "root/data.txt" ∧
    ("root/data.txt" = poochW.full_path "data.txt" ∧
     ∃ kh c, poochW.registry.lookup "data.txt" = some kh ∧
       (Pooch.fetch toyHasher cdToy poochW "data.txt" none (some dlGood) fs0).fs.readFile
         (poochW.full_path "data.txt") = some c ∧
       hash_matches toyHasher c kh false = Except.ok true) :=
  ⟨by rfl,
   fetch_returns_verified_path toyHasher cdToy poochW "data.txt" (some dlGood) fs0
     "root/data.txt" (by rfl)⟩

/-- C5: when the local file exists and matches the registry hash, fetch
returns the target path; the result is fully characterised as the
original filesystem (plus the idempotent storage-root `mkdir`) and a
trace holding only the `makedirs` call — no downloader invocation, no
`choose_downloader` consultation, no log event. Moreover after any
successful fetch, an immediately following fetch of the same name with
any downloader behaves exactly that way (no network access). -/
theorem fetch_only_no_transfer (H : Hasher) (cd : String → Downloader)
    (p : Pooch) (fname : String) (dl : Option Downloader) (fs : FS) :
    (∀ kh c, p.registry.lookup fname = some kh →
      fs.readFile (p.full_path fname) = some c →
      hash_matches H c kh false = Except.ok true →
      Pooch.fetch H cd p fname none dl fs =
        ⟨Except.ok (p.full_path fname), fs.mkdir p.path, [Event.makedirs p.path]⟩) ∧
    (∀ v (dl2 : Option Downloader),
      (Pooch.fetch H cd p fname none dl fs).res = Except.ok v →
      Pooch.fetch H cd p fname none dl2 (Pooch.fetch H cd p fname none dl fs).fs =
        ⟨Except.ok (p.full_path fname),
         (Pooch.fetch H cd p fname none dl fs).fs.mkdir p.path,
         [Event.makedirs p.path]⟩) := by
  constructor
  · intro kh c hreg hc hm
    have heq := fetch_only_eq H cd p fname none dl fs kh c hreg hc hm
    simpa [finishFetch] using heq
  · intro v dl2 h
    obtain ⟨kh, a, c, evs, hreg, _, hrd, hm, _, _⟩ :=
      fetch_ok_inv H cd p fname none dl fs v h
    have heq := fetch_only_eq H cd p fname none dl2
      (Pooch.fetch H cd p fname none dl fs).fs kh c hreg hrd hm
    simpa [finishFetch] using heq

theorem fetch_only_no_transfer_witness :
    poochW.registry.lookup "data.txt" = some "sha256+hello" ∧
    fsFresh.readFile (poochW.full_path "data.txt") = some "hello" ∧
    hash_matches toyHasher "hello" "sha256+hello" false = Except.ok true ∧
    Pooch.fetch toyHasher cdToy poochW "data.txt" none none fsFresh =
      ⟨Except.ok (poochW.full_path "data.txt"), fsFresh.mkdir poochW.path,
       [Event.makedirs poochW.path]⟩ ∧
    (Pooch.fetch toyHasher cdToy poochW "data.txt" none none fsFresh).res =
      Except.ok "root/data.txt" ∧
    Pooch.fetch toyHasher cdToy poochW "data.txt" none (some dlBad)
        (Pooch.fetch toyHasher cdToy poochW "data.txt" none none fsFresh).fs =
      ⟨Except.ok (poochW.full_path "data.txt"),
       (Pooch.fetch toyHasher cdToy poochW "data.txt" none none fsFresh).fs.mkdir poochW.path,
       [Event.makedirs poochW.path]⟩ :=
  ⟨by rfl, by rfl, by rfl,
   (fetch_only_no_transfer toyHasher cdToy poochW "data.txt" none fsFresh).1
     "sha256+hello" "hello" (by rfl) (by rfl) (by rfl),
   by rfl,
   (fetch_only_no_transfer toyHasher cdToy poochW "data.txt" none fsFresh).2
     "root/data.txt" (some dlBad) (by rfl)⟩

/-- C2: on a download or update, if the downloader delivers content
whose digest does not equal the expected hash, fetch fails with
`HashMismatch`, the temporary file is discarded, and the file
previously at the target path (if any) is unchanged — the move to the
target never happens on a mismatch. -/
theorem fetch_mismatch_preserves_target (H : Hasher) (cd : String → Downloader)
    (p : Pooch) (fname : String) (proc : Option Processor) (dl : Option Downloader)
    (fs : FS) (kh : String) (av : String × String) (c x y : String)
    (hreg : p.registry.lookup fname = some kh)
    (hda : download_action H (fs.mkdir p.path) (p.full_path fname) kh = Except.ok av)
    (ha : av.1 = "download" ∨ av.1 = "update")
    (hdl : (dl.getD (cd (effectiveUrl p fname))).result = DLResult.ok c)
    (hm : hash_matches H c kh true = Except.error (PoochError.hashMismatch x y)) :
    (Pooch.fetch H cd p fname proc dl fs).res =
      Except.error (PoochError.hashMismatch x y) ∧
    (Pooch.fetch H cd p fname proc dl fs).fs.readFile (p.full_path fname) =
      fs.readFile (p.full_path fname) ∧
    (Pooch.fetch H cd p fname proc dl fs).fs.readFile
      (tmpName (p.full_path fname)) = none := by
  have he := stream_download_err_of_hash H (effectiveUrl p fname) (p.full_path fname)
    kh (dl.getD (cd (effectiveUrl p fname))) (fs.mkdir p.path) c
    (PoochError.hashMismatch x y) hdl hm
  have heq := fetch_transfer_err H cd p fname proc dl fs kh av
    (PoochError.hashMismatch x y) hreg hda ha he
  refine ⟨by rw [heq], ?_, ?_⟩
  · rw [heq]
    show (stream_download H (effectiveUrl p fname) (p.full_path fname) kh
      (dl.getD (cd (effectiveUrl p fname))) (fs.mkdir p.path)).fs.readFile
        (p.full_path fname) = fs.readFile (p.full_path fname)
    rw [stream_download_err_target H (effectiveUrl p fname) (p.full_path fname) kh
      (dl.getD (cd (effectiveUrl p fname))) (fs.mkdir p.path)
      (PoochError.hashMismatch x y) he, readFile_mkdir]
  · rw [heq]
    exact stream_download_tmp_gone H (effectiveUrl p fname) (p.full_path fname) kh
      (dl.getD (cd (effectiveUrl p fname))) (fs.mkdir p.path)

theorem fetch_mismatch_preserves_target_witness :
    poochW.registry.lookup "data.txt" = some "sha256+hello" ∧
    download_action toyHasher (fsStale.mkdir poochW.path) (poochW.full_path "data.txt")
      "sha256+hello" = Except.ok ("update", "Updating") ∧
    ((some dlBad).getD (cdToy (effectiveUrl poochW "data.txt"))).result =
      DLResult.ok "corrupt" ∧
    hash_matches toyHasher "corrupt" "sha256+hello" true =
      Except.error (PoochError.hashMismatch "sha256+corrupt" "sha256+hello") ∧
    ((Pooch.fetch toyHasher cdToy poochW "data.txt" none (some dlBad) fsStale).res =
       Except.error (PoochError.hashMismatch "sha256+corrupt" "sha256+hello") ∧
     (Pooch.fetch toyHasher cdToy poochW "data.txt" none (some dlBad) fsStale).fs.readFile
       (poochW.full_path "data.txt") = fsStale.readFile (poochW.full_path "data.txt") ∧
     (Pooch.fetch toyHasher cdToy poochW "data.txt" none (some dlBad) fsStale).fs.readFile
       (tmpName (poochW.full_path "data.txt")) = none) :=
  ⟨by rfl, by rfl, by rfl, by rfl,
   fetch_mismatch_preserves_target toyHasher cdToy poochW "data.txt" none (some dlBad)
     fsStale "sha256+hello" ("update", "Updating") "corrupt" "sha256+corrupt"
     "sha256+hello" (by rfl) (by rfl) (Or.inr rfl) (by rfl) (by rfl)⟩

/-- C7: when a fetch with a processor succeeds, the processor is
invoked exactly once — also on the fetch-only path — with the full
target path, the action string (one of `download`, `update`, `fetch`)
and the Pooch instance, and its return value is the result of fetch in
place of the bare path. -/
theorem fetch_processor_once (H : Hasher) (cd : String → Downloader) (p : Pooch)
    (fname : String) (proc : Processor) (dl : Option Downloader) (fs : FS)
    (v : String)
    (h : (Pooch.fetch H cd p fname (some proc) dl fs).res = Except.ok v) :
    ∃ a, (a = "download" ∨ a = "update" ∨ a = "fetch") ∧
      v = proc (p.full_path fname) a p ∧
      (Pooch.fetch H cd p fname (some proc) dl fs).trace.filter Event.isProcess =
        [Event.process (p.full_path fname) a] := by
  obtain ⟨kh, a, c, evs, hreg, haa, hrd, hm, hevs, heq⟩ :=
    fetch_ok_inv H cd p fname (some proc) dl fs v h
  refine ⟨a, haa, ?_, ?_⟩
  · rw [heq] at h
    simp [finishFetch] at h
    exact h.symm
  · rw [heq]
    show (evs ++ [Event.process (p.full_path fname) a]).filter Event.isProcess = _
    rw [List.filter_append, hevs]
    rfl

theorem fetch_processor_once_witness :
    (Pooch.fetch toyHasher cdToy poochW "data.txt" (some procW) none fsFresh).res =
      Except.ok "root/data.txt:fetch" ∧
    ∃ a, (a = "download" ∨ a = "update" ∨ a = "fetch") ∧
      "root/data.txt:fetch" = procW (poochW.full_path "data.txt") a poochW ∧
      (Pooch.fetch toyHasher cdToy poochW "data.txt" (some procW) none
        fsFresh).trace.filter Event.isProcess =
        [Event.process (poochW.full_path "data.txt") a] :=
  ⟨by rfl,
   fetch_processor_once toyHasher cdToy poochW "data.txt" procW none fsFresh
     "root/data.txt:fetch" (by rfl)⟩

/-- C8: when a downloader is supplied explicitly and the resolved
action requires a transfer, the supplied downloader is the one
invoked, and `choose_downloader` is never consulted — no
downloader-selection event appears in the trace. -/
theorem fetch_explicit_downloader_wins (H : Hasher) (cd : String → Downloader)
    (p : Pooch) (fname : String) (proc : Option Processor) (d : Downloader)
    (fs : FS) (kh : String) (av : String × String)
    (hreg : p.registry.lookup fname = some kh)
    (hda : download_action H (fs.mkdir p.path) (p.full_path fname) kh = Except.ok av)
    (ha : av.1 = "download" ∨ av.1 = "update") :
    (∀ u, Event.choose u ∉ (Pooch.fetch H cd p fname proc (some d) fs).trace) ∧
    Event.download d.tag (effectiveUrl p fname) (tmpName (p.full_path fname)) ∈
      (Pooch.fetch H cd p fname proc (some d) fs).trace := by
  cases he : (stream_download H (effectiveUrl p fname) (p.full_path fname) kh
      ((some d).getD (cd (effectiveUrl p fname))) (fs.mkdir p.path)).err with
  | some e =>
    have heq := fetch_transfer_err H cd p fname proc (some d) fs kh av e hreg hda ha he
    rw [heq]
    constructor
    · intro u
      by_cases hdir : (fs.mkdir p.path).dirExists (parentDir (p.full_path fname)) <;>
        simp [chooseEvents, stream_download_trace, hdir]
    · by_cases hdir : (fs.mkdir p.path).dirExists (parentDir (p.full_path fname)) <;>
        simp [chooseEvents, stream_download_trace, hdir]
  | none =>
    have heq := fetch_transfer_ok H cd p fname proc (some d) fs kh av hreg hda ha he
    rw [heq]
    constructor
    · intro u
      cases proc <;>
        by_cases hdir : (fs.mkdir p.path).dirExists (parentDir (p.full_path fname)) <;>
        simp [finishFetch, chooseEvents, stream_download_trace, hdir]
    · cases proc <;>
        by_cases hdir : (fs.mkdir p.path).dirExists (parentDir (p.full_path fname)) <;>
        simp [finishFetch, chooseEvents, stream_download_trace, hdir]

theorem fetch_explicit_downloader_wins_witness :
    poochW.registry.lookup "data.txt" = some "sha256+hello" ∧
    download_action toyHasher (fs0.mkdir poochW.path) (poochW.full_path "data.txt")
      "sha256+hello" = Except.ok ("download", "Downloading") ∧
    ((∀ u, Event.choose u ∉
        (Pooch.fetch toyHasher cdToy poochW "data.txt" none (some dlGood) fs0).trace) ∧
     Event.download dlGood.tag (effectiveUrl poochW "data.txt")
       (tmpName (poochW.full_path "data.txt")) ∈
       (Pooch.fetch toyHasher cdToy poochW "data.txt" none (some dlGood) fs0).trace) :=
  ⟨by rfl, by rfl,
   fetch_explicit_downloader_wins toyHasher cdToy poochW "data.txt" none dlGood fs0
     "sha256+hello" ("download", "Downloading") (by rfl) (by rfl) (Or.inl rfl)⟩

/-- C10: `load_registry` skips lines that are blank after stripping,
applies two-field lines as registry entries and three-field lines as
registry plus URL entries — assignments that overwrite any earlier
entry for the same name — and stops with an error carrying the 1-based
line number and the field count on any line with exactly 1 or at least
4 whitespace-separated fields, returning the entries applied so far
unchanged at that point. -/
theorem load_registry_line_cases (p : Pooch) (line : String) (ls : List String)
    (n : Nat) :
    (splitFields line = [] →
      load_registry_from p (line :: ls) n = load_registry_from p ls (n + 1)) ∧
    (∀ a b, splitFields line = [a, b] →
      load_registry_from p (line :: ls) n =
        load_registry_from { p with registry := upsert p.registry a b } ls (n + 1)) ∧
    (∀ a b u, splitFields line = [a, b, u] →
      load_registry_from p (line :: ls) n =
        load_registry_from
          { p with registry := upsert p.registry a b, urls := upsert p.urls a u }
          ls (n + 1)) ∧
    ((splitFields line).length = 1 ∨ 4 ≤ (splitFields line).length →
      load_registry_from p (line :: ls) n =
        (p, some ⟨n + 1, (splitFields line).length⟩)) ∧
    (∀ a b, (upsert p.registry a b).lookup a = some b) := by
  refine ⟨?_, ?_, ?_, ?_, ?_⟩
  · intro h
    simp [load_registry_from, h]
  · intro a b h
    simp [load_registry_from, h]
  · intro a b u h
    simp [load_registry_from, h]
  · intro h
    rcases hsf : splitFields line with _ | ⟨a, _ | ⟨b, _ | ⟨c, _ | ⟨d, rest⟩⟩⟩⟩ <;>
      rw [hsf] at h <;> simp at h <;> simp [load_registry_from, hsf]
  · intro a b
    simp [upsert, List.lookup]

theorem load_registry_line_cases_witness :
    (splitFields "   " = [] ∧
      load_registry_from poochW ["   "] 0 = load_registry_from poochW [] 1) ∧
    (splitFields "f.txt h1" = ["f.txt", "h1"] ∧
      load_registry_from poochW ["f.txt h1"] 0 =
        load_registry_from
          { poochW with registry := upsert poochW.registry "f.txt" "h1" } [] 1) ∧
    (splitFields "f.txt h2 http://u" = ["f.txt", "h2", "http://u"] ∧
      load_registry_from poochW ["f.txt h2 http://u"] 0 =
        load_registry_from
          { poochW with
            registry := upsert poochW.registry "f.txt" "h2",
            urls := upsert poochW.urls "f.txt" "http://u" } [] 1) ∧
    ((splitFields "justonefield").length = 1 ∧
      load_registry_from poochW ["justonefield"] 0 =
        (poochW, some ⟨1, (splitFields "justonefield").length⟩)) ∧
    (upsert poochW.registry "data.txt" "md5+new").lookup "data.txt" =
      some "md5+new" :=
  ⟨⟨by rfl, (load_registry_line_cases poochW "   " [] 0).1 (by rfl)⟩,
   ⟨by rfl, (load_registry_line_cases poochW "f.txt h1" [] 0).2.1 "f.txt" "h1" (by rfl)⟩,
   ⟨by rfl,
    (load_registry_line_cases poochW "f.txt h2 http://u" [] 0).2.2.1 "f.txt" "h2"
      "http://u" (by rfl)⟩,
   ⟨by rfl,
    (load_registry_line_cases poochW "justonefield" [] 0).2.2.2.1 (Or.inl (by rfl))⟩,
   (load_registry_line_cases poochW "x" [] 0).2.2.2.2 "data.txt" "md5+new"⟩
